import Mathlib

/-!
Shallow embedding of `sneakpeek-cli` (src/index.js), a small CLI that zips a
directory and uploads it to the sneakpeek API, tagging the upload with git
revision metadata resolved from CI environment variables or local git.

JavaScript values that matter here are strings that may also be `undefined`
or `null`; we model them with `JStr`.  The environment is a partial map from
variable names to strings; git subprocess invocations are modelled by an
oracle `GitRun` giving the raw output of a command (or `none` when the
invocation fails, which the `git` wrapper absorbs into `null`).
-/

namespace Sneakpeek

/-- A JavaScript value in the string-or-missing positions of the program:
`undefined`, `null`, or an actual string. -/
inductive JStr where
  | undef : JStr
  | nullv : JStr
  | str : String → JStr
deriving DecidableEq, Repr

namespace JStr

/-- JS truthiness for these values: only a nonempty string is truthy. -/
def truthy : JStr → Bool
  | .str s => s ≠ ""
  | _ => false

/-- JS `String(v)` coercion, as performed by `encodeURIComponent` and
template/field coercions. -/
def toStr : JStr → String
  | .undef => "undefined"
  | .nullv => "null"
  | .str s => s

/-- Coercion used by `Array.prototype.join`: `undefined` and `null` become
the empty string. -/
def joinStr : JStr → String
  | .undef => ""
  | .nullv => ""
  | .str s => s

/-- JS `a || b`. -/
def jsOr (a b : JStr) : JStr := if a.truthy then a else b

end JStr

/-- The process environment: a partial map from variable names to strings. -/
def Env : Type := String → Option String

/-- Reading `process.env[k]`: an unset variable is `undefined`. -/
def envGet (env : Env) (k : String) : JStr :=
  match env k with
  | none => .undef
  | some v => .str v

/-- The revision metadata record produced by `getCiInfo` / `getGitInfo`. -/
structure RevisionInfo where
  sha : JStr
  reftype : JStr
  ref : JStr
deriving DecidableEq, Repr

/-- `getCiInfo()` from src/index.js: sha is `CI_BUILD_REF`; if `CI_BUILD_TAG`
is truthy the reftype is `"tag"` with that tag as ref, otherwise the reftype
is `"branch"` with `CI_BUILD_REF_NAME` as ref. -/
def getCiInfo (env : Env) : RevisionInfo :=
  let sha := envGet env "CI_BUILD_REF"
  if (envGet env "CI_BUILD_TAG").truthy then
    { sha := sha, reftype := .str "tag", ref := envGet env "CI_BUILD_TAG" }
  else
    { sha := sha, reftype := .str "branch", ref := envGet env "CI_BUILD_REF_NAME" }

/-- Oracle for git subprocess invocations: the full argument vector
(`git` included) maps to the raw textual output, or `none` when the
invocation fails (nonzero exit). -/
def GitRun : Type := List String → Option String

/-- JS `String.prototype.trim()` on subprocess output: strip leading and
trailing whitespace. -/
def jsTrim (s : String) : String :=
  ⟨((s.data.dropWhile Char.isWhitespace).reverse.dropWhile Char.isWhitespace).reverse⟩

/-- Drop one leading double quote from a character list, if present. -/
def dropLeadingQuote : List Char → List Char
  | c :: rest => if c = '"' then rest else c :: rest
  | [] => []

/-- The `.replace(/^"/, "").replace(/"$/, "")` step of the `git` wrapper:
drop one leading double quote if present, then one trailing double quote. -/
def stripOuterQuotes (s : String) : String :=
  ⟨(dropLeadingQuote (dropLeadingQuote s.data).reverse).reverse⟩

/-- `git(...args)` from src/index.js: run the command; on failure return
`null`, on success trim the output and strip one pair of outer quotes. -/
def gitJ (run : GitRun) (args : List String) : JStr :=
  match run ("git" :: args) with
  | none => .nullv
  | some out => .str (stripOuterQuotes (jsTrim out))

/-- `getGitInfo(rev = "HEAD")` from src/index.js: sha from `git show`;
reftype/ref from an exact tag match, falling back to the abbreviated branch
name; reftype becomes `null` when the branch query is also falsy. -/
def getGitInfo (run : GitRun) (rev : String := "HEAD") : RevisionInfo :=
  let sha := gitJ run ["show", "--format=format:\"%H\"", "-s", rev]
  let tagRef := gitJ run ["describe", "--tags", "--exact-match", rev]
  if tagRef.truthy then
    { sha := sha, reftype := .str "tag", ref := tagRef }
  else
    let branchRef := gitJ run ["rev-parse", "--abbrev-ref", rev]
    if branchRef.truthy then
      { sha := sha, reftype := .str "branch", ref := branchRef }
    else
      { sha := sha, reftype := .nullv, ref := branchRef }

/-- `gitInfo()` from src/index.js: CI mode when the `CI` variable is truthy,
local git mode otherwise. -/
def gitInfo (env : Env) (run : GitRun) : RevisionInfo :=
  if (envGet env "CI").truthy then getCiInfo env else getGitInfo run

/-- Hex digit (uppercase) for `encodeURIComponent` percent escapes. -/
def hexDigit (n : Nat) : Char :=
  if n < 10 then Char.ofNat (48 + n) else Char.ofNat (55 + n)

/-- UTF-8 bytes of a code point, for `encodeURIComponent`. -/
def utf8Bytes (n : Nat) : List Nat :=
  if n < 128 then [n]
  else if n < 2048 then [192 + n / 64, 128 + n % 64]
  else if n < 65536 then [224 + n / 4096, 128 + (n / 64) % 64, 128 + n % 64]
  else [240 + n / 262144, 128 + (n / 4096) % 64, 128 + (n / 64) % 64, 128 + n % 64]

/-- The characters `encodeURIComponent` leaves unescaped: ASCII letters,
digits, and `- _ . ! ~ * ( )` together with the apostrophe (code 39). -/
def isURIUnreserved (c : Char) : Bool :=
  c.isAlpha || c.isDigit || "-_.!~*()".toList.contains c || c.toNat = 39

/-- Encoding of a single character under `encodeURIComponent`. -/
def encChar (c : Char) : List Char :=
  if isURIUnreserved c then [c]
  else (utf8Bytes c.toNat).flatMap
    (fun b => [Char.ofNat 37, hexDigit (b / 16), hexDigit (b % 16)])

/-- JavaScript `encodeURIComponent`. -/
def encodeURIComponent (s : String) : String :=
  ⟨(s.data.map encChar).flatten⟩

/-- `sneakpeekUrl(base, project, git)` from src/index.js: throws when the
reftype is neither `"branch"` nor `"tag"`; otherwise joins
`[base, "projects", enc(project), plural, enc(ref)]` with `/`.  Property
lookup in `reftypeToUrlMap` coerces the key to a string; `Array.join`
coerces `undefined`/`null` elements to the empty string while
`encodeURIComponent` coerces its argument via `String(·)`. -/
def sneakpeekUrl (base project : JStr) (git : RevisionInfo) : Except String String :=
  let plural : Option String :=
    if git.reftype.toStr = "branch" then some "branches"
    else if git.reftype.toStr = "tag" then some "tags"
    else none
  match plural with
  | none => .error "Current project is neither on a tag nor a branch"
  | some p =>
      .ok (String.intercalate "/"
        [base.joinStr, "projects", encodeURIComponent project.toStr, p,
         encodeURIComponent git.ref.toStr])

/-- The merged options record (`DEFAULTS` shape) from src/index.js. -/
structure OptionsObj where
  path : JStr
  project : JStr
  gitlabProject : JStr
  apiUrl : JStr
  apiKey : JStr
deriving DecidableEq, Repr

/-- The module-level `DEFAULTS` object: null project fields; API URL and key
defaulted from the environment (`a || b` semantics). -/
def DEFAULTS (env : Env) : OptionsObj :=
  { path := .nullv
    project := .nullv
    gitlabProject := .nullv
    apiUrl := (envGet env "SNEAKPEEK_API_URL").jsOr (.str "https://api.peek.digitpaint.nl")
    apiKey := (envGet env "SNEAKPEEK_API_KEY").jsOr .nullv }

/-- The HTTP request assembled by `upload` once the URL is built: target URL,
optional verbatim `Authorization` header, the `sha` and `gitlab_project` form
fields, and the attached archive file. -/
structure HttpRequest where
  url : String
  authHeader : Option String
  fields : List (String × String)
  file : String
deriving DecidableEq, Repr

/-- The synchronous phase of `upload(zipfile, options)` from src/index.js,
given the revision metadata `gitInfo()` returned: build the URL (the throw
from `sneakpeekUrl` propagates, so no request is assembled), then assemble
the request.  The `Authorization` header is set verbatim when the key is
truthy and not the empty string; form fields are string-coerced. -/
def uploadRequestWith (zipfile : String) (options : OptionsObj)
    (metadata : RevisionInfo) : Except String HttpRequest := do
  let url ← sneakpeekUrl options.apiUrl options.project metadata
  .ok { url := url
        authHeader :=
          if options.apiKey.truthy && options.apiKey ≠ .str "" then
            some options.apiKey.toStr
          else none
        fields := [("sha", metadata.sha.toStr),
                   ("gitlab_project", options.gitlabProject.toStr)]
        file := zipfile }

/-- Outcome of the HTTP POST as seen by `upload`'s `.then/.catch` handlers:
either a success with a response body, or a failure carrying the HTTP status
(absent for pure network errors) and an error detail. -/
inductive HttpResult where
  | success (body : String) : HttpResult
  | failure (status : Option Int) (err : String) : HttpResult
deriving DecidableEq, Repr

/-- What the settled promise of `upload` looks like: the console lines
printed and whether the promise rejected. -/
structure UploadEnd where
  output : List String
  rejected : Bool
deriving DecidableEq, Repr

/-- The `.then(...).catch(...)` tail of `upload`: success prints the body;
a 401 failure prints the unauthorized message; any other failure prints
"Upload failed" and the error detail.  The catch handler returns normally in
every case, so the resulting promise always resolves. -/
def uploadSettle : HttpResult → UploadEnd
  | .success body => { output := [body], rejected := false }
  | .failure status err =>
      if status = some 401 then
        { output := ["Unauthorized API access try again with a (differten) API-key"]
          rejected := false }
      else
        { output := ["Upload failed", err], rejected := false }

/-- Events the archiver / write stream can emit that settle the `zip`
promise: an archiving `error` (rejects) or the write stream `finish`
(resolves with the temp file path). -/
inductive ZipEvent where
  | errorEv (err : String) : ZipEvent
  | finishEv : ZipEvent
deriving DecidableEq, Repr

/-- How the promise returned by `zip(sourcePath)` settles, given the
sequence of events emitted: the first event wins (a promise settles once).
`none` means the promise is still pending. -/
def zipSettle (tmpFile : String) : List ZipEvent → Option (Except String String)
  | [] => none
  | .errorEv e :: _ => some (.error e)
  | .finishEv :: _ => some (.ok tmpFile)

/-- What `fs.statSync` can report about a path in this model. -/
inductive Entry where
  | missing : Entry
  | fileE : Entry
  | dirE : Entry
deriving DecidableEq, Repr

/-- The error raised by `validatePath`: the `statSync` ENOENT error for a
missing path, or the thrown string for a non-directory path. -/
inductive PathError where
  | enoent (path : String) : PathError
  | notDirectory (path : String) : PathError
deriving DecidableEq, Repr

/-- The descriptive text of a path validation error; `notDirectory` carries
the exact string thrown by src/index.js. -/
def PathError.message : PathError → String
  | .enoent p => "ENOENT: no such file or directory, stat " ++ p
  | .notDirectory p => "Path " ++ p ++ " is not a directory"

/-- `validatePath(dir)` from src/index.js: `statSync` throws on a missing
path; a stat that is not a directory throws the descriptive string. -/
def validatePath (fsys : String → Entry) (dir : String) : Except PathError Unit :=
  match fsys dir with
  | .missing => .error (.enoent dir)
  | .fileE => .error (.notDirectory dir)
  | .dirE => .ok ()

/-- CLI argument values bound by yargs for the `upload` command. -/
structure Argv where
  path : JStr
  project : JStr
  gitlabProject : JStr
  apiUrl : JStr
  apiKey : JStr
deriving DecidableEq, Repr

/-- `Object.assign({}, DEFAULTS, {...})` in `uploadCommand`: the override
object carries all five keys, so every field comes from `argv`; the target
is a fresh object, not `DEFAULTS`. -/
def mergedOptions (argv : Argv) : OptionsObj :=
  { path := argv.path
    project := argv.project
    gitlabProject := argv.gitlabProject
    apiUrl := argv.apiUrl
    apiKey := argv.apiKey }

/-- Observable outcome of one run of `uploadCommand`: the path validation
error if one was thrown, whether `zip` was invoked (and hence the temp
archive file created by its write stream), whether `upload` was invoked, and
the synchronous result of `upload` when it was. -/
structure CommandOutcome where
  pathError : Option PathError
  archiveCreated : Bool
  uploadAttempted : Bool
  request : Option (Except String HttpRequest)
deriving Repr

/-- `uploadCommand(argv)` from src/index.js: merge options, validate the
path synchronously (a failure aborts before `zip` is called), then
`zip(path).then(zipfile => upload(zipfile, options))`: the upload is only
attempted when the zip promise resolves. -/
def uploadCommandRun (fsys : String → Entry) (zipEvents : List ZipEvent)
    (tmpFile : String) (env : Env) (run : GitRun) (argv : Argv) : CommandOutcome :=
  let options := mergedOptions argv
  match validatePath fsys options.path.toStr with
  | .error e =>
      { pathError := some e, archiveCreated := false
        uploadAttempted := false, request := none }
  | .ok _ =>
      match zipSettle tmpFile zipEvents with
      | some (.ok zipfile) =>
          { pathError := none, archiveCreated := true, uploadAttempted := true
            request := some (uploadRequestWith zipfile options (gitInfo env run)) }
      | _ =>
          { pathError := none, archiveCreated := true
            uploadAttempted := false, request := none }

/-- One progress event delivered to the `req.on('progress', ...)` handler. -/
structure ProgressEvent where
  loaded : Int
  total : Int
deriving DecidableEq, Repr

/-- The state the progress handler closes over: the bar (with its total) once
instantiated, the `last` counter, and the sequence of `tick` amounts issued. -/
structure ProgressState where
  bar : Option Int
  last : Int
  ticks : List Int
deriving DecidableEq, Repr

/-- One invocation of the progress handler in `upload`: the first event only
instantiates the bar sized to `e.total` (leaving `last` at 0); later events
tick by `e.loaded - last` and then set `last := e.loaded`. -/
def progressStep (st : ProgressState) (e : ProgressEvent) : ProgressState :=
  match st.bar with
  | none => { st with bar := some e.total }
  | some _ => { st with ticks := st.ticks ++ [e.loaded - st.last], last := e.loaded }

/-- Folding the progress handler over a whole event sequence, from the
initial state (`bar` unset, `last = 0`, no ticks). -/
def runProgress (events : List ProgressEvent) : ProgressState :=
  events.foldl progressStep { bar := none, last := 0, ticks := [] }

/-- The tick sequence the specification describes: each event after the
first advances the bar by the delta of `loaded` since the previous event. -/
def specDeltas : List ProgressEvent → List Int
  | [] => []
  | _ :: [] => []
  | a :: b :: rest => (b.loaded - a.loaded) :: specDeltas (b :: rest)

/-- Deltas of a `loaded` sequence against a running baseline: what the code
actually ticks, starting from baseline 0 after the first event. -/
def deltasFrom (baseline : Int) : List Int → List Int
  | [] => []
  | x :: xs => (x - baseline) :: deltasFrom x xs

/-- A JavaScript object as an ordered association list, for the
`Object.assign` heap model. -/
abbrev JSObj : Type := List (String × JStr)

/-- Setting one property: overwrite in place when the key exists, append
otherwise. -/
def objSet (o : JSObj) (k : String) (v : JStr) : JSObj :=
  if o.any (fun p => p.1 = k) then
    o.map (fun p => if p.1 = k then (k, v) else p)
  else o ++ [(k, v)]

/-- Copying all properties of `src` onto an object value (the effect of
`Object.assign` on its target). -/
def objAssign (t : JSObj) (src : JSObj) : JSObj :=
  src.foldl (fun acc p => objSet acc p.1 p.2) t

/-- A tiny heap: objects addressed by index, so that mutation of one object
is observable on others. -/
abbrev Heap : Type := List JSObj

/-- Look an object up in the heap. -/
def heapGet (h : Heap) (a : Nat) : JSObj := h.getD a []

/-- The property list of the override object `uploadCommand` builds from
`argv` (all five keys, in source order). -/
def argvFields (argv : Argv) : JSObj :=
  [("project", argv.project), ("gitlabProject", argv.gitlabProject),
   ("path", argv.path), ("apiUrl", argv.apiUrl), ("apiKey", argv.apiKey)]

/-- The `Object.assign({}, DEFAULTS, {...})` step of `uploadCommand` in the
heap model: allocate a fresh empty object, copy the fields of the `DEFAULTS`
object at address `d` onto it, then copy the argv fields onto it.  Returns
the new heap and the address of the merged object. -/
def uploadCommandMerge (h : Heap) (d : Nat) (argv : Argv) : Heap × Nat :=
  let fresh := h.length
  let h1 := h ++ [[]]
  let h2 := h1.set fresh (objAssign (heapGet h1 fresh) (heapGet h1 d))
  let h3 := h2.set fresh (objAssign (heapGet h2 fresh) (argvFields argv))
  (h3, fresh)

/-- The field list of the module-level `DEFAULTS` object, in source order. -/
def defaultsFields (env : Env) : JSObj :=
  [("path", .nullv), ("project", .nullv), ("gitlabProject", .nullv),
   ("apiUrl", (envGet env "SNEAKPEEK_API_URL").jsOr (.str "https://api.peek.digitpaint.nl")),
   ("apiKey", (envGet env "SNEAKPEEK_API_KEY").jsOr .nullv)]

/-! Concrete fixtures used by example conjuncts and witnesses. -/

/-- A git oracle where every invocation fails. -/
def anyRun : GitRun := fun _ => none

/-- An empty process environment. -/
def emptyEnv : Env := fun _ => none

/-- CI environment with a tag: `CI=1, CI_BUILD_REF=abc123, CI_BUILD_TAG=v1.2.0`. -/
def ciTagEnv : Env := fun k =>
  if k = "CI" then some "1"
  else if k = "CI_BUILD_REF" then some "abc123"
  else if k = "CI_BUILD_TAG" then some "v1.2.0"
  else none

/-- CI environment without a tag: `CI=1, CI_BUILD_REF=abc123,
CI_BUILD_REF_NAME=main`. -/
def ciBranchEnv : Env := fun k =>
  if k = "CI" then some "1"
  else if k = "CI_BUILD_REF" then some "abc123"
  else if k = "CI_BUILD_REF_NAME" then some "main"
  else none

/-- CI environment where only `CI` itself is set. -/
def ciOnlyEnv : Env := fun k => if k = "CI" then some "1" else none

/-- A git oracle for a checkout sitting exactly on tag `v1.0.0`. -/
def tagRun : GitRun := fun args =>
  if args = ["git", "show", "--format=format:\"%H\"", "-s", "HEAD"] then some "\"cafebabe\""
  else if args = ["git", "describe", "--tags", "--exact-match", "HEAD"] then some "v1.0.0"
  else none

/-- A git oracle for a checkout on branch `main` with no exact tag. -/
def mainBranchRun : GitRun := fun args =>
  if args = ["git", "show", "--format=format:\"%H\"", "-s", "HEAD"] then some "\"deadbeef\""
  else if args = ["git", "rev-parse", "--abbrev-ref", "HEAD"] then some "main"
  else none

/-- Concrete CLI arguments for witnesses. -/
def argvDemo : Argv :=
  { path := .str "/site", project := .str "demo", gitlabProject := .str "group/demo"
    apiUrl := .str "https://api.example.com", apiKey := .nullv }

/-- A filesystem where every path stats as a directory. -/
def allDirs : String → Entry := fun _ => .dirE

/-- A filesystem where every path stats as a regular file. -/
def allFiles : String → Entry := fun _ => .fileE

/-! Helper lemmas. -/

lemma toStr_ne_tag {m : JStr} (h : m ≠ .str "tag") : m.toStr ≠ "tag" := by
  cases m with
  | undef => simp [JStr.toStr]
  | nullv => simp [JStr.toStr]
  | str s => simpa [JStr.toStr] using h

lemma toStr_ne_branch {m : JStr} (h : m ≠ .str "branch") : m.toStr ≠ "branch" := by
  cases m with
  | undef => simp [JStr.toStr]
  | nullv => simp [JStr.toStr]
  | str s => simpa [JStr.toStr] using h

lemma intercalate_five (a b c d e : String) :
    String.intercalate "/" [a, b, c, d, e] =
      a ++ "/" ++ b ++ "/" ++ c ++ "/" ++ d ++ "/" ++ e := by
  simp [String.intercalate, String.intercalate.go, String.append_assoc]

lemma sneakpeekUrl_branch (base project : String) (sha r : JStr) :
    sneakpeekUrl (.str base) (.str project) { sha := sha, reftype := .str "branch", ref := r }
      = .ok (base ++ "/projects/" ++ encodeURIComponent project ++ "/branches/"
              ++ encodeURIComponent r.toStr) := by
  have h : sneakpeekUrl (.str base) (.str project)
      { sha := sha, reftype := .str "branch", ref := r }
      = .ok (String.intercalate "/"
          [base, "projects", encodeURIComponent project, "branches",
           encodeURIComponent r.toStr]) := rfl
  rw [h, intercalate_five]
  exact congrArg Except.ok (String.ext (by simp [String.data_append]))

lemma sneakpeekUrl_tag (base project : String) (sha r : JStr) :
    sneakpeekUrl (.str base) (.str project) { sha := sha, reftype := .str "tag", ref := r }
      = .ok (base ++ "/projects/" ++ encodeURIComponent project ++ "/tags/"
              ++ encodeURIComponent r.toStr) := by
  have h : sneakpeekUrl (.str base) (.str project)
      { sha := sha, reftype := .str "tag", ref := r }
      = .ok (String.intercalate "/"
          [base, "projects", encodeURIComponent project, "tags",
           encodeURIComponent r.toStr]) := rfl
  rw [h, intercalate_five]
  exact congrArg Except.ok (String.ext (by simp [String.data_append]))

/-! Claim theorems. -/

/-- C1: whenever the revision's reftype is neither `"tag"` nor `"branch"`,
`sneakpeekUrl` throws the descriptive error, and the synchronous phase of
`upload` propagates exactly that error before any HTTP request is
assembled — so the upload never reaches the HTTP request. -/
theorem upload_url_error_before_request (zipfile : String) (options : OptionsObj)
    (metadata : RevisionInfo)
    (h1 : metadata.reftype ≠ .str "tag") (h2 : metadata.reftype ≠ .str "branch") :
    sneakpeekUrl options.apiUrl options.project metadata
        = .error "Current project is neither on a tag nor a branch" ∧
    uploadRequestWith zipfile options metadata
        = .error "Current project is neither on a tag nor a branch" := by
  have hu : sneakpeekUrl options.apiUrl options.project metadata
      = .error "Current project is neither on a tag nor a branch" := by
    simp [sneakpeekUrl, toStr_ne_branch h2, toStr_ne_tag h1]
  exact ⟨hu, by simp [uploadRequestWith, hu, Bind.bind, Except.bind]⟩

/-- Witness for C1 at a concrete input: reftype `null` (an unresolvable
local checkout) makes the upload fail with the descriptive error. -/
theorem upload_url_error_before_request_witness :
    sneakpeekUrl (mergedOptions argvDemo).apiUrl (mergedOptions argvDemo).project
        { sha := .str "cafebabe", reftype := .nullv, ref := .nullv }
        = .error "Current project is neither on a tag nor a branch" ∧
    uploadRequestWith "/tmp/archive.zip" (mergedOptions argvDemo)
        { sha := .str "cafebabe", reftype := .nullv, ref := .nullv }
        = .error "Current project is neither on a tag nor a branch" :=
  upload_url_error_before_request "/tmp/archive.zip" (mergedOptions argvDemo)
    { sha := .str "cafebabe", reftype := .nullv, ref := .nullv }
    (by decide) (by decide)

/-- C2: for every base, project and ref, the URL built for a branch is
`base/projects/enc(project)/branches/enc(ref)` and for a tag it is
`base/projects/enc(project)/tags/enc(ref)`; in particular project `demo` on
branch `main` against `https://api.example.com` yields exactly
`https://api.example.com/projects/demo/branches/main`. -/
theorem sneakpeek_url_format :
    (∀ (base project : String) (sha r : JStr),
      sneakpeekUrl (.str base) (.str project) { sha := sha, reftype := .str "branch", ref := r }
        = .ok (base ++ "/projects/" ++ encodeURIComponent project ++ "/branches/"
                ++ encodeURIComponent r.toStr)) ∧
    (∀ (base project : String) (sha r : JStr),
      sneakpeekUrl (.str base) (.str project) { sha := sha, reftype := .str "tag", ref := r }
        = .ok (base ++ "/projects/" ++ encodeURIComponent project ++ "/tags/"
                ++ encodeURIComponent r.toStr)) ∧
    sneakpeekUrl (.str "https://api.example.com") (.str "demo")
        { sha := .str "abc123", reftype := .str "branch", ref := .str "main" }
      = .ok "https://api.example.com/projects/demo/branches/main" :=
  ⟨sneakpeekUrl_branch, sneakpeekUrl_tag, rfl⟩

/-- C3: with the CI indicator set, revision resolution uses `getCiInfo`:
sha is `CI_BUILD_REF`; a truthy `CI_BUILD_TAG` gives reftype `"tag"` with
that tag as ref, otherwise reftype is `"branch"` with `CI_BUILD_REF_NAME`
as ref; the two concrete CI environments resolve exactly as stated. -/
theorem ci_revision_resolution :
    (∀ (env : Env) (run : GitRun), (envGet env "CI").truthy →
      gitInfo env run = getCiInfo env) ∧
    (∀ (env : Env) (t : String), env "CI_BUILD_TAG" = some t → t ≠ "" →
      getCiInfo env =
        { sha := envGet env "CI_BUILD_REF", reftype := .str "tag", ref := .str t }) ∧
    (∀ env : Env, (envGet env "CI_BUILD_TAG").truthy = false →
      getCiInfo env =
        { sha := envGet env "CI_BUILD_REF", reftype := .str "branch"
          ref := envGet env "CI_BUILD_REF_NAME" }) ∧
    gitInfo ciTagEnv anyRun
      = { sha := .str "abc123", reftype := .str "tag", ref := .str "v1.2.0" } ∧
    gitInfo ciBranchEnv anyRun
      = { sha := .str "abc123", reftype := .str "branch", ref := .str "main" } := by
  refine ⟨?_, ?_, ?_, by decide, by decide⟩
  · intro env run h
    simp [gitInfo, h]
  · intro env t h ht
    simp [getCiInfo, envGet, h, JStr.truthy, ht]
  · intro env h
    simp [getCiInfo, h]

/-- Witness for C3: the first CI fixture goes through `gitInfo` into the
tag-shaped `RevisionInfo`, with all hypotheses discharged concretely. -/
theorem ci_revision_resolution_witness :
    gitInfo ciTagEnv anyRun = getCiInfo ciTagEnv ∧
    getCiInfo ciTagEnv
      = { sha := envGet ciTagEnv "CI_BUILD_REF", reftype := .str "tag", ref := .str "v1.2.0" } ∧
    getCiInfo ciBranchEnv
      = { sha := envGet ciBranchEnv "CI_BUILD_REF", reftype := .str "branch"
          ref := envGet ciBranchEnv "CI_BUILD_REF_NAME" } :=
  ⟨ci_revision_resolution.1 ciTagEnv anyRun (by decide),
   ci_revision_resolution.2.1 ciTagEnv "v1.2.0" rfl (by decide),
   ci_revision_resolution.2.2.1 ciBranchEnv (by decide)⟩

/-- C4: local resolution tries the exact tag match first (a truthy tag
query becomes reftype `"tag"`); with no exact tag it falls back to the
branch-name query; and when the branch query is also falsy (failed
invocation or empty output — the unresolvable case), reftype is `null`. -/
theorem local_revision_resolution (run : GitRun) (rev : String) :
    ((gitJ run ["describe", "--tags", "--exact-match", rev]).truthy →
      getGitInfo run rev =
        { sha := gitJ run ["show", "--format=format:\"%H\"", "-s", rev]
          reftype := .str "tag"
          ref := gitJ run ["describe", "--tags", "--exact-match", rev] }) ∧
    (¬ (gitJ run ["describe", "--tags", "--exact-match", rev]).truthy →
     (gitJ run ["rev-parse", "--abbrev-ref", rev]).truthy →
      getGitInfo run rev =
        { sha := gitJ run ["show", "--format=format:\"%H\"", "-s", rev]
          reftype := .str "branch"
          ref := gitJ run ["rev-parse", "--abbrev-ref", rev] }) ∧
    (¬ (gitJ run ["describe", "--tags", "--exact-match", rev]).truthy →
     ¬ (gitJ run ["rev-parse", "--abbrev-ref", rev]).truthy →
      (getGitInfo run rev).reftype = .nullv ∧
      (getGitInfo run rev).ref = gitJ run ["rev-parse", "--abbrev-ref", rev]) := by
  refine ⟨?_, ?_, ?_⟩
  · intro h
    simp [getGitInfo, h]
  · intro h1 h2
    simp [getGitInfo, h1, h2]
  · intro h1 h2
    simp [getGitInfo, h1, h2]

/-- Witness for C4 on concrete git oracles: a checkout on an exact tag, a
checkout on branch `main`, and a checkout where every git call fails. -/
theorem local_revision_resolution_witness :
    getGitInfo tagRun "HEAD"
      = { sha := .str "cafebabe", reftype := .str "tag", ref := .str "v1.0.0" } ∧
    getGitInfo mainBranchRun "HEAD"
      = { sha := .str "deadbeef", reftype := .str "branch", ref := .str "main" } ∧
    (getGitInfo anyRun "HEAD").reftype = .nullv :=
  ⟨((local_revision_resolution tagRun "HEAD").1 (by decide)).trans (by decide),
   ((local_revision_resolution mainBranchRun "HEAD").2.1 (by decide) (by decide)).trans
     (by decide),
   ((local_revision_resolution anyRun "HEAD").2.2 (by decide) (by decide)).1⟩

/-- C5: the promise `upload` returns never rejects, whatever the HTTP
outcome; a 401 failure prints the unauthorized message, and every other
failure prints "Upload failed" followed by the error detail. -/
theorem upload_settle_resolves :
    (∀ r : HttpResult, (uploadSettle r).rejected = false) ∧
    (∀ err : String, uploadSettle (.failure (some 401) err)
      = { output := ["Unauthorized API access try again with a (differten) API-key"]
          rejected := false }) ∧
    (∀ (status : Option Int) (err : String), uploadSettle (.failure status err)
      = if status = some 401 then
          { output := ["Unauthorized API access try again with a (differten) API-key"]
            rejected := false }
        else { output := ["Upload failed", err], rejected := false }) := by
  refine ⟨?_, fun err => rfl, fun status err => rfl⟩
  intro r
  cases r with
  | success body => rfl
  | failure status err =>
      simp only [uploadSettle]
      split <;> rfl

/-- C6: a first `error` event rejects the `zip` promise with that error; a
first `finish` event resolves it with the temp file path; and on a rejected
zip, `uploadCommand`'s `.then` never runs, so the upload is not attempted. -/
theorem zip_error_rejects_aborts_pipeline :
    (∀ (tmpFile err : String) (rest : List ZipEvent),
      zipSettle tmpFile (.errorEv err :: rest) = some (.error err)) ∧
    (∀ (tmpFile : String) (rest : List ZipEvent),
      zipSettle tmpFile (.finishEv :: rest) = some (.ok tmpFile)) ∧
    (∀ (fsys : String → Entry) (err tmpFile : String) (rest : List ZipEvent)
       (env : Env) (run : GitRun) (argv : Argv),
      fsys (mergedOptions argv).path.toStr = .dirE →
      (uploadCommandRun fsys (.errorEv err :: rest) tmpFile env run argv).uploadAttempted
          = false ∧
      (uploadCommandRun fsys (.errorEv err :: rest) tmpFile env run argv).request = none) := by
  refine ⟨fun _ _ _ => rfl, fun _ _ => rfl, ?_⟩
  intro fsys err tmpFile rest env run argv h
  constructor <;> simp [uploadCommandRun, validatePath, h, zipSettle]

/-- Witness for C6: a concrete run over a directory whose archiving fails
with "disk full" never attempts the upload. -/
theorem zip_error_rejects_aborts_pipeline_witness :
    (uploadCommandRun allDirs [.errorEv "disk full"] "/tmp/a.zip" emptyEnv anyRun
        argvDemo).uploadAttempted = false ∧
    (uploadCommandRun allDirs [.errorEv "disk full"] "/tmp/a.zip" emptyEnv anyRun
        argvDemo).request = none :=
  zip_error_rejects_aborts_pipeline.2.2 allDirs "disk full" "/tmp/a.zip" [] emptyEnv
    anyRun argvDemo rfl

/-- C7: when the path does not stat as a directory, `uploadCommand` raises
exactly the path validation error and nothing else happens: the archive is
never created and the upload never attempted. -/
theorem invalid_path_fails_before_archive (fsys : String → Entry)
    (zipEvents : List ZipEvent) (tmpFile : String) (env : Env) (run : GitRun)
    (argv : Argv) (h : fsys (mergedOptions argv).path.toStr ≠ .dirE) :
    ∃ e : PathError,
      uploadCommandRun fsys zipEvents tmpFile env run argv =
        { pathError := some e, archiveCreated := false
          uploadAttempted := false, request := none } ∧
      validatePath fsys (mergedOptions argv).path.toStr = .error e ∧
      (e = .enoent (mergedOptions argv).path.toStr ∨
       e = .notDirectory (mergedOptions argv).path.toStr) := by
  cases hf : fsys (mergedOptions argv).path.toStr with
  | missing =>
      exact ⟨.enoent (mergedOptions argv).path.toStr,
        by simp [uploadCommandRun, validatePath, hf],
        by simp [validatePath, hf], Or.inl rfl⟩
  | fileE =>
      exact ⟨.notDirectory (mergedOptions argv).path.toStr,
        by simp [uploadCommandRun, validatePath, hf],
        by simp [validatePath, hf], Or.inr rfl⟩
  | dirE => exact absurd hf h

/-- Witness for C7: pointing the upload command at a regular file raises the
not-a-directory error with nothing archived or uploaded. -/
theorem invalid_path_fails_before_archive_witness :
    ∃ e : PathError,
      uploadCommandRun allFiles [.finishEv] "/tmp/a.zip" emptyEnv anyRun argvDemo =
        { pathError := some e, archiveCreated := false
          uploadAttempted := false, request := none } ∧
      validatePath allFiles (mergedOptions argvDemo).path.toStr = .error e ∧
      (e = .enoent (mergedOptions argvDemo).path.toStr ∨
       e = .notDirectory (mergedOptions argvDemo).path.toStr) :=
  invalid_path_fails_before_archive allFiles [.finishEv] "/tmp/a.zip" emptyEnv anyRun
    argvDemo (by decide)

lemma progress_foldl (rest : List ProgressEvent) (t last : Int) (acc : List Int) :
    (List.foldl progressStep { bar := some t, last := last, ticks := acc } rest).ticks
        = acc ++ deltasFrom last (rest.map ProgressEvent.loaded) ∧
    (List.foldl progressStep { bar := some t, last := last, ticks := acc } rest).bar
        = some t := by
  induction rest generalizing last acc with
  | nil => simp [deltasFrom]
  | cons x xs ih =>
      refine ⟨?_, ?_⟩
      · simpa [progressStep, deltasFrom, List.append_assoc]
          using (ih x.loaded (acc ++ [x.loaded - last])).1
      · simpa [progressStep] using (ih x.loaded (acc ++ [x.loaded - last])).2

/-- C8 counterexample: for the event sequence loaded 10 then loaded 20 (both
with total 100), the handler ticks the bar by 20 — the full loaded count —
while the claim predicts the delta 10 since the previous event. -/
theorem progress_delta_counterexample :
    (runProgress [⟨10, 100⟩, ⟨20, 100⟩]).ticks = [20] ∧
    specDeltas [⟨10, 100⟩, ⟨20, 100⟩] = [10] ∧
    (runProgress [⟨10, 100⟩, ⟨20, 100⟩]).ticks ≠ specDeltas [⟨10, 100⟩, ⟨20, 100⟩] := by
  exact ⟨rfl, rfl, by decide⟩

/-- C8 amended: the first event instantiates the bar sized to its total, and
each subsequent event ticks by its loaded count minus the loaded count of
the previous ticking event, with baseline 0 — the first event's loaded value
is never recorded, so the second event advances by its full loaded count. -/
theorem progress_first_total_then_baseline_deltas (e : ProgressEvent)
    (rest : List ProgressEvent) :
    (runProgress (e :: rest)).bar = some e.total ∧
    (runProgress (e :: rest)).ticks = deltasFrom 0 (rest.map ProgressEvent.loaded) := by
  have h := progress_foldl rest e.total 0 []
  exact ⟨by simpa [runProgress, progressStep] using h.2,
         by simpa [runProgress, progressStep] using h.1⟩

lemma sneakpeekUrl_ok_branch (base project sha ref : JStr) :
    ∃ u, sneakpeekUrl base project { sha := sha, reftype := .str "branch", ref := ref }
      = .ok u :=
  ⟨_, rfl⟩

lemma sneakpeekUrl_ok_tag (base project sha ref : JStr) :
    ∃ u, sneakpeekUrl base project { sha := sha, reftype := .str "tag", ref := ref }
      = .ok u :=
  ⟨_, rfl⟩

lemma uploadRequestWith_of_ok (zipfile : String) (options : OptionsObj)
    (g : RevisionInfo) (u : String)
    (h : sneakpeekUrl options.apiUrl options.project g = .ok u) :
    uploadRequestWith zipfile options g =
      .ok { url := u
            authHeader :=
              if options.apiKey.truthy && options.apiKey ≠ .str "" then
                some options.apiKey.toStr
              else none
            fields := [("sha", g.sha.toStr),
                       ("gitlab_project", options.gitlabProject.toStr)]
            file := zipfile } := by
  simp [uploadRequestWith, h, Bind.bind, Except.bind]

/-- C9: CI-mode revision info always carries reftype `"tag"` or `"branch"`,
so URL construction never fails in CI mode and the request is always
assembled, with the (possibly `undefined`) sha and ref string-coerced into
the form fields and URL; with only `CI` set, the URL path segment is the
literal string `undefined`. -/
theorem ci_reftype_always_resolvable :
    (∀ env : Env,
      (getCiInfo env).reftype = .str "tag" ∨ (getCiInfo env).reftype = .str "branch") ∧
    (∀ (env : Env) (base project : JStr),
      ∃ u, sneakpeekUrl base project (getCiInfo env) = .ok u) ∧
    (∀ (env : Env) (zipfile : String) (options : OptionsObj),
      ∃ req, uploadRequestWith zipfile options (getCiInfo env) = .ok req ∧
        req.fields = [("sha", (getCiInfo env).sha.toStr),
                      ("gitlab_project", options.gitlabProject.toStr)] ∧
        req.file = zipfile) ∧
    sneakpeekUrl (.str "https://api.example.com") (.str "demo") (getCiInfo ciOnlyEnv)
      = .ok "https://api.example.com/projects/demo/branches/undefined" := by
  have hshape : ∀ env : Env,
      getCiInfo env =
        { sha := envGet env "CI_BUILD_REF", reftype := .str "tag"
          ref := envGet env "CI_BUILD_TAG" } ∨
      getCiInfo env =
        { sha := envGet env "CI_BUILD_REF", reftype := .str "branch"
          ref := envGet env "CI_BUILD_REF_NAME" } := by
    intro env
    by_cases h : (envGet env "CI_BUILD_TAG").truthy
    · exact Or.inl (by simp [getCiInfo, h])
    · exact Or.inr (by simp [getCiInfo, h])
  refine ⟨?_, ?_, ?_, rfl⟩
  · intro env
    rcases hshape env with h | h <;> rw [h]
    · exact Or.inl rfl
    · exact Or.inr rfl
  · intro env base project
    rcases hshape env with h | h <;> rw [h]
    · exact sneakpeekUrl_ok_tag ..
    · exact sneakpeekUrl_ok_branch ..
  · intro env zipfile options
    have : ∃ u, sneakpeekUrl options.apiUrl options.project (getCiInfo env) = .ok u := by
      rcases hshape env with h | h <;> rw [h]
      · exact sneakpeekUrl_ok_tag ..
      · exact sneakpeekUrl_ok_branch ..
    obtain ⟨u, hu⟩ := this
    exact ⟨_, uploadRequestWith_of_ok zipfile options (getCiInfo env) u hu, rfl, rfl⟩

lemma heapGet_set_ne {a b : Nat} (h : Heap) (o : JSObj) (hab : a ≠ b) :
    heapGet (h.set a o) b = heapGet h b := by
  simp only [heapGet, List.getD_eq_getElem?_getD]
  rw [List.getElem?_set_ne hab]

lemma heapGet_append_singleton {b : Nat} (h : Heap) (o : JSObj) (hb : b < h.length) :
    heapGet (h ++ [o]) b = heapGet h b := by
  simp only [heapGet, List.getD_eq_getElem?_getD]
  rw [List.getElem?_append_left hb]

/-- C10: the `Object.assign` in `uploadCommand` targets a freshly allocated
object, so the heap cell holding the module-level `DEFAULTS` object is
unchanged by the merge, and the merged object is a different object. -/
theorem defaults_unchanged_by_merge (h : Heap) (d : Nat) (argv : Argv)
    (hd : d < h.length) :
    heapGet (uploadCommandMerge h d argv).1 d = heapGet h d ∧
    (uploadCommandMerge h d argv).2 ≠ d := by
  constructor
  · simp only [uploadCommandMerge]
    rw [heapGet_set_ne _ _ hd.ne', heapGet_set_ne _ _ hd.ne',
      heapGet_append_singleton h [] hd]
  · simp only [uploadCommandMerge]
    exact hd.ne'

/-- Witness for C10: merging over a singleton heap holding the `DEFAULTS`
object leaves that object's fields unchanged. -/
theorem defaults_unchanged_by_merge_witness :
    heapGet (uploadCommandMerge [defaultsFields emptyEnv] 0 argvDemo).1 0
        = heapGet [defaultsFields emptyEnv] 0 ∧
    (uploadCommandMerge [defaultsFields emptyEnv] 0 argvDemo).2 ≠ 0 :=
  defaults_unchanged_by_merge [defaultsFields emptyEnv] 0 argvDemo (by decide)

end Sneakpeek
